import Mathlib

/-!
Verification of the record-parsing core of the `terraform-provider-emaildns`
repository: the DKIM public-key record parser (`internal/provider/dkim_parser.go`)
and the SPF mechanism classifier (`internal/provider/spf_data_source.go`).

Strings are modelled as `List Char`.  The Go standard-library routines the code
calls (`strings.TrimSpace`, `strings.Split`, `strings.Index`,
`strings.ReplaceAll`, `base64.StdEncoding.DecodeString`) are embedded
concretely below; the ASN.1 public-key decoders of `crypto/x509` are external
collaborators and are modelled as an abstract environment (`CryptoEnv`).
-/

/-- Go `unicode.IsSpace`: the Unicode White_Space property. -/
def isGoSpace (c : Char) : Bool :=
  c = ' ' || c = '\t' || c = '\n' || c = Char.ofNat 11 || c = Char.ofNat 12 ||
  c = '\r' || c = Char.ofNat 0x85 || c = Char.ofNat 0xA0 || c = Char.ofNat 0x1680 ||
  (Char.ofNat 0x2000 ≤ c && c ≤ Char.ofNat 0x200A) ||
  c = Char.ofNat 0x2028 || c = Char.ofNat 0x2029 || c = Char.ofNat 0x202F ||
  c = Char.ofNat 0x205F || c = Char.ofNat 0x3000

/-- Go `strings.TrimSpace`, leading part. -/
def trimLeft (l : List Char) : List Char := l.dropWhile isGoSpace

/-- Go `strings.TrimSpace`: drop leading and trailing white space. -/
def trim (l : List Char) : List Char :=
  ((trimLeft l).reverse.dropWhile isGoSpace).reverse

/-- Go `strings.Split(s, sep)` for a one-character separator: the list of
substrings between occurrences of `sep`; always non-empty. -/
def splitSep (sep : Char) : List Char → List (List Char)
  | [] => [[]]
  | c :: cs =>
    if c = sep then [] :: splitSep sep cs
    else
      match splitSep sep cs with
      | [] => [[c]]
      | h :: t => (c :: h) :: t

/-- Go `strings.Index(s, "=")` together with the two slices around the first
occurrence: `some (before, after)` when the separator occurs, else `none`. -/
def splitFirst (sep : Char) : List Char → Option (List Char × List Char)
  | [] => none
  | c :: cs =>
    if c = sep then some ([], cs)
    else
      match splitFirst sep cs with
      | some (a, b) => some (c :: a, b)
      | none => none

/-- Go `strings.ReplaceAll(p, " ", "")`: remove every space character. -/
def stripSpaces (l : List Char) : List Char := l.filter (fun c => !(c = ' '))

/-- The error kinds of the DKIM parser (spec taxonomy for the `error` values
produced in `dkim_parser.go`). -/
inductive DKIMError where
  | malformedTag (pair : List Char)
  | emptyTagName
  | unsupportedVersion
  | missingPublicKey
  | invalidBase64
  | unsupportedKeyType (k : List Char)
  | invalidKeyEncoding
  | keyAlgorithmMismatch
  | keyTooShort (bits : Nat)
  | invalidKeySize (got : Nat)
deriving DecidableEq, Repr

/-- The lexed tag map: a Go `map[string]string`, observed through lookup. -/
abbrev Params := List (List Char × List Char)

/-- Lookup in the tag map (`params[key]` read). -/
def mapFind? (m : Params) (k : List Char) : Option (List Char) :=
  match m with
  | [] => none
  | (k', v) :: rest => if k' = k then some v else mapFind? rest k

/-- Go map assignment `params[key] = value`: replace the binding in place when
the key is present, append otherwise. -/
def mapInsert (m : Params) (k v : List Char) : Params :=
  match m with
  | [] => [(k, v)]
  | (k', v') :: rest =>
    if k' = k then (k, v) :: rest else (k', v') :: mapInsert rest k v

/-- The loop body of `parseDKIMParams` over the `;`-split segments. -/
def lexLoop : List (List Char) → Params → Except DKIMError Params
  | [], m => .ok m
  | seg :: rest, m =>
    let pair := trim seg
    if pair = [] then lexLoop rest m
    else
      match splitFirst '=' pair with
      | none => .error (.malformedTag pair)
      | some kv =>
        let key := trim kv.1
        let value := trim kv.2
        if key = [] then .error .emptyTagName
        else lexLoop rest (mapInsert m key value)

/-- Function `parseDKIMParams` from `dkim_parser.go`: split on `;`, trim each segment,
skip empty ones, split each on its first `=`, trim key and value. -/
def parseDKIMParams (s : List Char) : Except DKIMError Params :=
  lexLoop (splitSep ';' s) []

/-- Function `parseTagList` from `dkim_parser.go`: split on `:`, trim each part, drop
empties. -/
def parseTagList (s : List Char) : List (List Char) :=
  ((splitSep ':' s).map trim).filter (fun p => !(p = []))

/-- One 6-bit value per character of the standard base64 alphabet. -/
def b64Index (c : Char) : Option Nat :=
  if 'A' ≤ c ∧ c ≤ 'Z' then some (c.toNat - 65)
  else if 'a' ≤ c ∧ c ≤ 'z' then some (c.toNat - 71)
  else if '0' ≤ c ∧ c ≤ '9' then some (c.toNat + 4)
  else if c = '+' then some 62
  else if c = '/' then some 63
  else none

/-- Standard base64 decoding, quantum by quantum, with mandatory padding:
the decoding performed by Go `base64.StdEncoding` once newline characters
have been removed.  Padding may only close the final quantum. -/
def b64DecodeQuanta : List Char → Option (List Nat)
  | [] => some []
  | c0 :: c1 :: c2 :: c3 :: rest => do
    let v0 ← b64Index c0
    let v1 ← b64Index c1
    if c2 = '=' then
      if c3 = '=' ∧ rest = [] then some [v0 * 4 + v1 / 16] else none
    else do
      let v2 ← b64Index c2
      if c3 = '=' then
        if rest = [] then some [v0 * 4 + v1 / 16, v1 % 16 * 16 + v2 / 4] else none
      else do
        let v3 ← b64Index c3
        let bs ← b64DecodeQuanta rest
        some ((v0 * 4 + v1 / 16) :: (v1 % 16 * 16 + v2 / 4) :: (v2 % 4 * 64 + v3) :: bs)
  | _ => none

/-- Go `base64.StdEncoding.DecodeString`: carriage returns and newlines are
ignored wherever they occur, then the text is decoded in padded quanta. -/
def b64Decode (l : List Char) : Option (List Nat) :=
  b64DecodeQuanta (l.filter (fun c => !(c = '\r' || c = '\n')))

/-- A Go `rsa.PublicKey`: modulus `n` and exponent `e`. -/
structure RSAPublicKey where
  n : Nat
  e : Nat
deriving DecidableEq, Repr

/-- The result of `x509.ParsePKIXPublicKey`, seen through the type assertion
the parser performs: either an RSA key or a key of some other algorithm. -/
inductive PublicKey where
  | rsa (k : RSAPublicKey)
  | nonRSA
deriving DecidableEq, Repr

/-- The external ASN.1 public-key decoders of `crypto/x509`, abstracted:
`parsePKIX` is `x509.ParsePKIXPublicKey`, `parsePKCS1` is
`x509.ParsePKCS1PublicKey` (which can only produce an RSA key). -/
structure CryptoEnv where
  parsePKIX : List Nat → Option PublicKey
  parsePKCS1 : List Nat → Option RSAPublicKey

/-- Helper `bitLenFuel fuel n`: binary length of `n`, by fuelled halving. -/
def bitLenFuel : Nat → Nat → Nat
  | 0, _ => 0
  | fuel + 1, n => if n = 0 then 0 else bitLenFuel fuel (n / 2) + 1

/-- Go `big.Int.BitLen` on a natural number: the length of its binary
representation, `0` for `0`. -/
def natBitLen (n : Nat) : Nat := bitLenFuel n n

/-- The quantity `keyBits := rsaPub.Size() * 8` from `dkim_parser.go`: Go `rsa.PublicKey.Size()`
is the modulus length in bytes, `(BitLen + 7) / 8`. -/
def rsaKeyBits (k : RSAPublicKey) : Nat := (natBitLen k.n + 7) / 8 * 8

/-- The parsed DKIM record (`DKIMRecord` in `dkim_parser.go`). -/
structure DKIMRecord where
  keyType : List Char
  publicKey : List Char
  hashAlgorithms : List (List Char)
  services : List (List Char)
  flags : List (List Char)
  notes : List Char
  isRevoked : Bool
deriving DecidableEq, Repr

/-- Lines 98–118 of `dkim_parser.go`: fill in the `h`, `s`, `t`, `n` tags of a
record whose key fields are already determined. -/
def buildRecord (params : Params) (keyType publicKey : List Char)
    (isRevoked : Bool) : DKIMRecord :=
  { keyType := keyType
    publicKey := publicKey
    hashAlgorithms :=
      match mapFind? params (String.data "h") with
      | some h => parseTagList h
      | none => []
    services :=
      match mapFind? params (String.data "s") with
      | some s => parseTagList s
      | none => []
    flags :=
      match mapFind? params (String.data "t") with
      | some t => parseTagList t
      | none => []
    notes :=
      match mapFind? params (String.data "n") with
      | some n => n
      | none => []
    isRevoked := isRevoked }

/-- Lines 72–83 of `dkim_parser.go`: try `x509.ParsePKIXPublicKey` first, fall
back to `x509.ParsePKCS1PublicKey`; when both fail the key encoding is invalid,
and a PKIX key of a different algorithm fails the `*rsa.PublicKey` assertion. -/
def parseRSA (env : CryptoEnv) (b : List Nat) : Except DKIMError RSAPublicKey :=
  match env.parsePKIX b with
  | some (.rsa k) => .ok k
  | some .nonRSA => .error .keyAlgorithmMismatch
  | none =>
    match env.parsePKCS1 b with
    | some k => .ok k
    | none => .error .invalidKeyEncoding

/-- Lines 52–96 of `dkim_parser.go`: validation of a non-empty `p` value.
The space characters are removed, the result must decode as standard base64,
the key type is read from the `k` tag (absent defaulting to `rsa`, and the
`switch` treats the empty value like `rsa`), and the decoded bytes are
validated per key type. -/
def keyStage (env : CryptoEnv) (params : Params) (p : List Char) :
    Except DKIMError DKIMRecord :=
  let p' := stripSpaces p
  match b64Decode p' with
  | none => .error .invalidBase64
  | some b =>
    let kt :=
      match mapFind? params (String.data "k") with
      | some k => k
      | none => String.data "rsa"
    if kt = String.data "rsa" ∨ kt = [] then
      match parseRSA env b with
      | .error e => .error e
      | .ok k =>
        if rsaKeyBits k < 1024 then .error (.keyTooShort (rsaKeyBits k))
        else .ok (buildRecord params (String.data "rsa") p' false)
    else if kt = String.data "ed25519" then
      if b.length ≠ 32 then .error (.invalidKeySize b.length)
      else .ok (buildRecord params (String.data "ed25519") p' false)
    else .error (.unsupportedKeyType kt)

/-- Function `ParseDKIM` after a successful lex (lines 33–118 of `dkim_parser.go`). -/
def parseDKIMWithParams (env : CryptoEnv) (params : Params) :
    Except DKIMError DKIMRecord :=
  let afterVersion : Except DKIMError DKIMRecord :=
    match mapFind? params (String.data "p") with
    | none => .error .missingPublicKey
    | some p =>
      if p = [] then
        .ok (buildRecord params (String.data "rsa") [] true)
      else keyStage env params p
  match mapFind? params (String.data "v") with
  | some v => if v = String.data "DKIM1" then afterVersion else .error .unsupportedVersion
  | none => afterVersion

/-- The `v` tag check passes: the tag is absent, or its value is `DKIM1`. -/
def versionOK (params : Params) : Prop :=
  mapFind? params (String.data "v") = none ∨
  mapFind? params (String.data "v") = some (String.data "DKIM1")

/-- Function `ParseDKIM` from `dkim_parser.go`, parameterised by the crypto decoders. -/
def ParseDKIM (env : CryptoEnv) (s : List Char) : Except DKIMError DKIMRecord :=
  match parseDKIMParams s with
  | .error e => .error e
  | .ok params => parseDKIMWithParams env params

/-- The external `wttw/spf` mechanism union, at its interface boundary.  Each
variant carries the canonical text `m.String()` together with the fields the
classifier reads (`DomainSpec`, or the CIDR text `m.Net.String()`).  `mUnknown`
stands for any mechanism type outside the type switch in `parseMechanism`. -/
inductive SPFMech where
  | mAll (str : List Char)
  | mInclude (str ds : List Char)
  | mA (str ds : List Char)
  | mMX (str ds : List Char)
  | mIp4 (str net : List Char)
  | mIp6 (str net : List Char)
  | mExists (str ds : List Char)
  | mPTR (str ds : List Char)
  | mUnknown (str : List Char)
deriving DecidableEq, Repr

/-- Method `m.String()`: the canonical text of a mechanism. -/
def mechStr : SPFMech → List Char
  | .mAll s => s
  | .mInclude s _ => s
  | .mA s _ => s
  | .mMX s _ => s
  | .mIp4 s _ => s
  | .mIp6 s _ => s
  | .mExists s _ => s
  | .mPTR s _ => s
  | .mUnknown s => s

/-- One classified `(qualifier, type, value)` triple. -/
structure ClassifiedMech where
  qualifier : List Char
  mechType : List Char
  value : List Char
deriving DecidableEq, Repr

/-- The qualifier scan at the top of `parseMechanism`: a leading `+`, `-`, `~`
or `?` is the qualifier and is stripped, else the qualifier defaults to `+`. -/
def stripQualifier (str : List Char) : List Char × List Char :=
  match str with
  | [] => (String.data "+", [])
  | c :: cs =>
    if c = '+' then (String.data "+", cs)
    else if c = '-' then (String.data "-", cs)
    else if c = '~' then (String.data "~", cs)
    else if c = '?' then (String.data "?", cs)
    else (String.data "+", c :: cs)

/-- Function `formatMechanismA` from the SPF data source. -/
def formatMechanismA (ds : List Char) : List Char :=
  if ds = [] then [] else ds

/-- Function `formatMechanismMX` from the SPF data source. -/
def formatMechanismMX (ds : List Char) : List Char :=
  if ds = [] then [] else ds

/-- Function `parseMechanism` from the SPF data source: extract qualifier, type and
value from one mechanism. -/
def parseMechanism (m : SPFMech) : ClassifiedMech :=
  let q := (stripQualifier (mechStr m)).1
  match m with
  | .mAll _ => ⟨q, String.data "all", []⟩
  | .mInclude _ ds => ⟨q, String.data "include", ds⟩
  | .mA _ ds => ⟨q, String.data "a", formatMechanismA ds⟩
  | .mMX _ ds => ⟨q, String.data "mx", formatMechanismMX ds⟩
  | .mIp4 _ net => ⟨q, String.data "ip4", net⟩
  | .mIp6 _ net => ⟨q, String.data "ip6", net⟩
  | .mExists _ ds => ⟨q, String.data "exists", ds⟩
  | .mPTR _ ds => ⟨q, String.data "ptr", ds⟩
  | .mUnknown _ => ⟨q, String.data "unknown", (stripQualifier (mechStr m)).2⟩

/-- The DNS-lookup switch in `Read`: the types that increment the counter. -/
def isLookupType (t : List Char) : Bool :=
  t = String.data "include" || t = String.data "a" || t = String.data "mx" ||
  t = String.data "ptr" || t = String.data "exists"

/-- The classified SPF record assembled by `Read`. -/
structure SPFRecord where
  mechanisms : List ClassifiedMech
  redirect : Option (List Char)
  dnsLookupCount : Nat
deriving DecidableEq, Repr

/-- The mechanism loop of `Read`: classify each mechanism in order, counting
the ones whose type requires a DNS lookup. -/
def readLoop : List SPFMech → List ClassifiedMech × Nat → List ClassifiedMech × Nat
  | [], acc => acc
  | m :: rest, acc =>
    let t := parseMechanism m
    let cnt := if isLookupType t.mechType then acc.2 + 1 else acc.2
    readLoop rest (acc.1 ++ [t], cnt)

/-- The classification performed by `Read` in the SPF data source, applied to
the external parser's output `(mechanisms, redirect)`; an absent redirect is
the empty string. -/
def readSPF (ms : List SPFMech) (redirect : List Char) : SPFRecord :=
  let acc := readLoop ms ([], 0)
  { mechanisms := acc.1
    redirect := if redirect = [] then none else some redirect
    dnsLookupCount := acc.2 + (if redirect = [] then 0 else 1) }

/-- A segment the lexer rejects with `MalformedTag`: non-empty after trimming
and containing no `=`. -/
def segNoEq (seg : List Char) : Bool :=
  !(trim seg = []) && (splitFirst '=' (trim seg)).isNone

/-- A segment the lexer rejects with `EmptyTagName`: it contains an `=` but
its key half trims to nothing. -/
def segEmptyKey (seg : List Char) : Bool :=
  match splitFirst '=' (trim seg) with
  | some kv => trim kv.1 = []
  | none => false

/-- A segment on which the lexer stops with an error. -/
def segBad (seg : List Char) : Bool := segNoEq seg || segEmptyKey seg

/-- The trimmed key/value pair a segment contributes, when it has one. -/
def segKV (seg : List Char) : Option (List Char × List Char) :=
  match splitFirst '=' (trim seg) with
  | some kv => some (trim kv.1, trim kv.2)
  | none => none

/-- The value of the last segment binding `key`: the value last-tag-wins
lexing must associate with `key`. -/
def lastValueFor : List (List Char) → List Char → Option (List Char)
  | [], _ => none
  | seg :: rest, key =>
    match lastValueFor rest key with
    | some v => some v
    | none =>
      match segKV seg with
      | some kv => if kv.1 = key then some kv.2 else none
      | none => none

/-- A crypto environment in which neither ASN.1 decoder accepts anything. -/
def env0 : CryptoEnv := ⟨fun _ => none, fun _ => none⟩

/-- A crypto environment whose PKIX decoder yields a non-RSA public key. -/
def envNonRSA : CryptoEnv := ⟨fun _ => some .nonRSA, fun _ => none⟩

/-- A crypto environment whose PKIX decoder maps the byte string `00` to an
RSA public key with modulus `2 ^ 1016`, a 1017-bit modulus whose byte size is
`128`.  `x509.ParsePKIXPublicKey` realises such a mapping on the DER encoding
of that key. -/
def envC3 : CryptoEnv :=
  ⟨fun b => if b = [0] then some (.rsa ⟨2 ^ 1016, 65537⟩) else none, fun _ => none⟩

/-- A crypto environment whose PKIX decoder yields a tiny (2-bit) RSA key. -/
def envSmall : CryptoEnv := ⟨fun _ => some (.rsa ⟨3, 3⟩), fun _ => none⟩

/-- The mechanism list of the spec's SPF example
`["+a", "include:_spf.google.com", "ip4:192.0.2.0/24", "-all"]`. -/
def demoMechs : List SPFMech :=
  [ .mA (String.data "+a") [],
    .mInclude (String.data "include:_spf.google.com") (String.data "_spf.google.com"),
    .mIp4 (String.data "ip4:192.0.2.0/24") (String.data "192.0.2.0/24"),
    .mAll (String.data "-all") ]

/-- A 44-character base64 text decoding to 32 zero bytes. -/
def pEd : List Char := List.replicate 43 'A' ++ ['=']

/-- A DKIM record with a 32-byte Ed25519 key. -/
def edRecText : List Char := String.data "v=DKIM1; k=ed25519; p=" ++ pEd

/-- The record the revoked-key example `v=DKIM1; p=` parses to. -/
def revokedRec : DKIMRecord :=
  ⟨String.data "rsa", [], [], [], [], [], true⟩

theorem readLoop_eq (ms : List SPFMech) (tris : List ClassifiedMech) (cnt : Nat) :
    readLoop ms (tris, cnt) =
      (tris ++ ms.map parseMechanism,
        cnt + (ms.map parseMechanism).countP (fun t => isLookupType t.mechType)) := by
  induction ms generalizing tris cnt with
  | nil => simp [readLoop]
  | cons m rest ih =>
    simp only [readLoop, List.map_cons, List.countP_cons]
    rw [ih]
    by_cases h : isLookupType (parseMechanism m).mechType
    · simp only [h, if_true, Prod.mk.injEq]
      exact ⟨by simp, by omega⟩
    · simp only [Prod.mk.injEq]
      rw [if_neg h, if_neg h]
      exact ⟨by simp, by omega⟩

/-- Claim C1: for every classified SPF record, `dnsLookupCount` equals the
number of mechanisms whose classified type lies in
`{include, a, mx, ptr, exists}` (the types `all`, `ip4`, `ip6` are not in that
set and never count), plus exactly `1` when a redirect is present; hence for a
fixed mechanism list the count with a redirect present is exactly one greater
than the count without one. -/
theorem c1_dns_lookup_count (ms : List SPFMech) (r : List Char) :
    ((readSPF ms r).dnsLookupCount =
      (readSPF ms r).mechanisms.countP
          (fun t => decide (t.mechType = String.data "include" ∨
            t.mechType = String.data "a" ∨ t.mechType = String.data "mx" ∨
            t.mechType = String.data "ptr" ∨ t.mechType = String.data "exists")) +
        (if r = [] then 0 else 1)) ∧
    isLookupType (String.data "all") = false ∧
    isLookupType (String.data "ip4") = false ∧
    isLookupType (String.data "ip6") = false ∧
    (r ≠ [] → (readSPF ms r).dnsLookupCount = (readSPF ms []).dnsLookupCount + 1) := by
  have hpred : ∀ t : ClassifiedMech,
      decide (t.mechType = String.data "include" ∨
        t.mechType = String.data "a" ∨ t.mechType = String.data "mx" ∨
        t.mechType = String.data "ptr" ∨ t.mechType = String.data "exists") =
      isLookupType t.mechType := by
    intro t
    simp [isLookupType, Bool.or_assoc]
  have hfun : (fun t : ClassifiedMech =>
      decide (t.mechType = String.data "include" ∨
        t.mechType = String.data "a" ∨ t.mechType = String.data "mx" ∨
        t.mechType = String.data "ptr" ∨ t.mechType = String.data "exists")) =
      (fun t => isLookupType t.mechType) := funext hpred
  refine ⟨?_, by decide, by decide, by decide, ?_⟩
  · rw [hfun]
    simp only [readSPF, readLoop_eq, List.nil_append, Nat.zero_add]
  · intro hr
    simp [readSPF, readLoop_eq, hr]

theorem c1_dns_lookup_count_witness :
    (String.data "example.com" ≠ ([] : List Char)) ∧
    (readSPF demoMechs (String.data "example.com")).dnsLookupCount =
      (readSPF demoMechs []).dnsLookupCount + 1 :=
  ⟨by decide, (c1_dns_lookup_count demoMechs (String.data "example.com")).2.2.2.2 (by decide)⟩

/-- Claim C6 (amended): the classifier is total — the classified sequence is
exactly the image of `parseMechanism` over the input, in the same length and
order, and an unrecognized mechanism shape is classified as `unknown` with its
source text, minus any leading qualifier character, as value, rather than
failing the record. -/
theorem c6_classifier_total (ms : List SPFMech) (r : List Char) :
    (readSPF ms r).mechanisms = ms.map parseMechanism ∧
    (readSPF ms r).mechanisms.length = ms.length ∧
    (∀ str, parseMechanism (.mUnknown str) =
      ⟨(stripQualifier str).1, String.data "unknown", (stripQualifier str).2⟩) := by
  refine ⟨?_, ?_, ?_⟩
  · simp [readSPF, readLoop_eq]
  · simp [readSPF, readLoop_eq]
  · intro str
    rfl

theorem c6_classifier_total_witness :
    (readSPF demoMechs []).mechanisms.length = demoMechs.length :=
  (c6_classifier_total demoMechs []).2.1

theorem c6_counterexample :
    (parseMechanism (.mUnknown (String.data "-foo"))).mechType = String.data "unknown" ∧
    (parseMechanism (.mUnknown (String.data "-foo"))).value ≠ String.data "-foo" := by
  decide

theorem segBad_of_trim_nil (seg : List Char) (h : trim seg = []) :
    segBad seg = false := by
  unfold segBad segNoEq segEmptyKey
  rw [h]
  rfl

theorem mapFind?_insert (m : Params) (k v key : List Char) :
    mapFind? (mapInsert m k v) key = if k = key then some v else mapFind? m key := by
  induction m with
  | nil => simp [mapInsert, mapFind?]
  | cons kv' rest ih =>
    obtain ⟨k', v'⟩ := kv'
    by_cases hk : k' = k
    · subst hk
      by_cases hkey : k' = key <;> simp [mapInsert, mapFind?, hkey]
    · simp only [mapInsert, if_neg hk, mapFind?]
      by_cases hkey : k' = key
      · subst hkey
        rw [if_pos rfl, if_neg (fun h => hk h.symm), if_pos rfl]
      · rw [if_neg hkey, ih, if_neg hkey]

theorem lexLoop_malformed (segs : List (List Char)) (m : Params) :
    (∃ t, lexLoop segs m = .error (.malformedTag t)) ↔
      (∃ seg, segs.find? segBad = some seg ∧ segNoEq seg = true) := by
  induction segs generalizing m with
  | nil => simp [lexLoop]
  | cons seg rest ih =>
    by_cases hskip : trim seg = []
    · rw [show lexLoop (seg :: rest) m = lexLoop rest m from by simp [lexLoop, hskip]]
      rw [List.find?_cons_of_neg _ (by simp [segBad_of_trim_nil seg hskip])]
      exact ih m
    · cases hsf : splitFirst '=' (trim seg) with
      | none =>
        have hbad : segBad seg = true := by
          simp [segBad, segNoEq, hskip, hsf]
        rw [List.find?_cons_of_pos _ hbad]
        constructor
        · intro _
          exact ⟨seg, rfl, by simp [segNoEq, hskip, hsf]⟩
        · intro _
          exact ⟨trim seg, by simp [lexLoop, hskip, hsf]⟩
      | some kv =>
        by_cases hkey : trim kv.1 = []
        · have hbad : segBad seg = true := by
            simp [segBad, segEmptyKey, hsf, hkey]
          rw [List.find?_cons_of_pos _ hbad]
          have hrun : lexLoop (seg :: rest) m = .error .emptyTagName := by
            simp [lexLoop, hskip, hsf, hkey]
          constructor
          · rintro ⟨t, ht⟩
            rw [hrun] at ht
            simp at ht
          · rintro ⟨seg', hs', hno⟩
            exfalso
            have hss : seg = seg' := by simpa using hs'
            subst hss
            rw [segNoEq, hsf] at hno
            simp at hno
        · have hbad : segBad seg = false := by
            simp [segBad, segNoEq, segEmptyKey, hskip, hsf, hkey]
          rw [List.find?_cons_of_neg _ (by simp [hbad])]
          rw [show lexLoop (seg :: rest) m =
              lexLoop rest (mapInsert m (trim kv.1) (trim kv.2)) from by
            simp [lexLoop, hskip, hsf, hkey]]
          exact ih _

theorem lexLoop_emptyTag (segs : List (List Char)) (m : Params) :
    lexLoop segs m = .error .emptyTagName ↔
      (∃ seg, segs.find? segBad = some seg ∧ segEmptyKey seg = true) := by
  induction segs generalizing m with
  | nil => simp [lexLoop]
  | cons seg rest ih =>
    by_cases hskip : trim seg = []
    · rw [show lexLoop (seg :: rest) m = lexLoop rest m from by simp [lexLoop, hskip]]
      rw [List.find?_cons_of_neg _ (by simp [segBad_of_trim_nil seg hskip])]
      exact ih m
    · cases hsf : splitFirst '=' (trim seg) with
      | none =>
        have hbad : segBad seg = true := by
          simp [segBad, segNoEq, hskip, hsf]
        rw [List.find?_cons_of_pos _ hbad]
        have hrun : lexLoop (seg :: rest) m = .error (.malformedTag (trim seg)) := by
          simp [lexLoop, hskip, hsf]
        constructor
        · intro ht
          rw [hrun] at ht
          simp at ht
        · rintro ⟨seg', hs', hek⟩
          exfalso
          have hss : seg = seg' := by simpa using hs'
          subst hss
          rw [segEmptyKey, hsf] at hek
          simp at hek
      | some kv =>
        by_cases hkey : trim kv.1 = []
        · have hbad : segBad seg = true := by
            simp [segBad, segEmptyKey, hsf, hkey]
          rw [List.find?_cons_of_pos _ hbad]
          have hrun : lexLoop (seg :: rest) m = .error .emptyTagName := by
            simp [lexLoop, hskip, hsf, hkey]
          constructor
          · intro _
            exact ⟨seg, rfl, by simp [segEmptyKey, hsf, hkey]⟩
          · intro _
            exact hrun
        · have hbad : segBad seg = false := by
            simp [segBad, segNoEq, segEmptyKey, hskip, hsf, hkey]
          rw [List.find?_cons_of_neg _ (by simp [hbad])]
          rw [show lexLoop (seg :: rest) m =
              lexLoop rest (mapInsert m (trim kv.1) (trim kv.2)) from by
            simp [lexLoop, hskip, hsf, hkey]]
          exact ih _

theorem lexLoop_lookup (segs : List (List Char)) (m m' : Params)
    (h : lexLoop segs m = .ok m') (key : List Char) :
    mapFind? m' key =
      match lastValueFor segs key with
      | some v => some v
      | none => mapFind? m key := by
  induction segs generalizing m with
  | nil =>
    simp only [lexLoop, Except.ok.injEq] at h
    subst h
    simp [lastValueFor]
  | cons seg rest ih =>
    by_cases hskip : trim seg = []
    · have hkv : segKV seg = none := by
        unfold segKV
        rw [hskip]
        rfl
      rw [show lexLoop (seg :: rest) m = lexLoop rest m from by simp [lexLoop, hskip]] at h
      rw [ih m h]
      cases hl : lastValueFor rest key <;> simp [lastValueFor, hkv, hl]
    · cases hsf : splitFirst '=' (trim seg) with
      | none => simp [lexLoop, hskip, hsf] at h
      | some kv =>
        by_cases hkey : trim kv.1 = []
        · simp [lexLoop, hskip, hsf, hkey] at h
        · rw [show lexLoop (seg :: rest) m =
              lexLoop rest (mapInsert m (trim kv.1) (trim kv.2)) from by
            simp [lexLoop, hskip, hsf, hkey]] at h
          rw [ih _ h]
          have hkv : segKV seg = some (trim kv.1, trim kv.2) := by
            simp [segKV, hsf]
          cases hl : lastValueFor rest key with
          | some v => simp [lastValueFor, hl]
          | none =>
            simp only [lastValueFor, hl, hkv, mapFind?_insert]
            by_cases hq : trim kv.1 = key <;> simp [hq]

/-- Claim C9 (amended): the lexer splits on `;`, skips segments empty after
trimming, splits each remaining segment on its first `=`, trims key and value
independently, and stops at the first offending segment in order: it fails
with `MalformedTag` exactly when that first offending segment contains no `=`,
and with `EmptyTagName` exactly when that segment's key half trims to nothing;
on success the value bound to a key is the one of the last segment yielding
that key, later duplicates silently overwriting earlier ones. -/
theorem c9_lexer (s : List Char) :
    ((∃ t, parseDKIMParams s = .error (.malformedTag t)) ↔
      (∃ seg, (splitSep ';' s).find? segBad = some seg ∧ segNoEq seg = true)) ∧
    ((parseDKIMParams s = .error .emptyTagName) ↔
      (∃ seg, (splitSep ';' s).find? segBad = some seg ∧ segEmptyKey seg = true)) ∧
    (∀ m key, parseDKIMParams s = .ok m →
      mapFind? m key = lastValueFor (splitSep ';' s) key) := by
  refine ⟨lexLoop_malformed _ _, lexLoop_emptyTag _ _, ?_⟩
  intro m key h
  rw [lexLoop_lookup _ _ _ h key]
  cases lastValueFor (splitSep ';' s) key <;> simp [mapFind?]

theorem c9_lexer_witness :
    mapFind? [(String.data "p", String.data "BBB")] (String.data "p") =
      lastValueFor (splitSep ';' (String.data "p=AAA; p=BBB")) (String.data "p") :=
  (c9_lexer (String.data "p=AAA; p=BBB")).2.2 _ _ (by rfl)

theorem c9_counterexample :
    parseDKIMParams (String.data "=x;abc") = .error .emptyTagName ∧
    (String.data "abc") ∈ splitSep ';' (String.data "=x;abc") ∧
    trim (String.data "abc") ≠ [] ∧
    splitFirst '=' (trim (String.data "abc")) = none :=
  ⟨by rfl, by decide, by decide, by rfl⟩

theorem parseDKIM_params (env : CryptoEnv) (s : List Char) (params : Params)
    (h : parseDKIMParams s = .ok params) :
    ParseDKIM env s = parseDKIMWithParams env params := by
  simp [ParseDKIM, h]

theorem withParams_revoked (env : CryptoEnv) (params : Params)
    (hv : versionOK params) (hp : mapFind? params (String.data "p") = some []) :
    parseDKIMWithParams env params =
      .ok (buildRecord params (String.data "rsa") [] true) := by
  rcases hv with hv | hv <;> simp [parseDKIMWithParams, hv, hp]

theorem withParams_keyStage (env : CryptoEnv) (params : Params) (p : List Char)
    (hv : versionOK params) (hp : mapFind? params (String.data "p") = some p)
    (hne : p ≠ []) :
    parseDKIMWithParams env params = keyStage env params p := by
  rcases hv with hv | hv <;> simp [parseDKIMWithParams, hv, hp, hne]

/-- Claim C4 (amended): whenever the lexed tag map contains the `p` tag with an
empty value and the `v` tag, when present, equals `DKIM1`, `ParseDKIM` succeeds
with `isRevoked = true` and an empty `publicKey`, skipping all key validation
(the key type stays at its `rsa` default whatever the `k` tag holds), while
still parsing the `h`, `s`, `t` and `n` tags into the result. -/
theorem c4_revoked (env : CryptoEnv) (s : List Char) (params : Params)
    (hparams : parseDKIMParams s = .ok params) (hv : versionOK params)
    (hp : mapFind? params (String.data "p") = some []) :
    ParseDKIM env s = .ok
      { keyType := String.data "rsa"
        publicKey := []
        hashAlgorithms :=
          match mapFind? params (String.data "h") with
          | some h => parseTagList h
          | none => []
        services :=
          match mapFind? params (String.data "s") with
          | some s => parseTagList s
          | none => []
        flags :=
          match mapFind? params (String.data "t") with
          | some t => parseTagList t
          | none => []
        notes :=
          match mapFind? params (String.data "n") with
          | some n => n
          | none => []
        isRevoked := true } := by
  rw [parseDKIM_params env s params hparams, withParams_revoked env params hv hp]
  rfl

theorem c4_revoked_witness :
    ParseDKIM env0 (String.data "v=DKIM1; p=; k=dsa; h=sha1:sha256; n=note") = .ok
      { keyType := String.data "rsa"
        publicKey := []
        hashAlgorithms := [String.data "sha1", String.data "sha256"]
        services := []
        flags := []
        notes := String.data "note"
        isRevoked := true } :=
  c4_revoked env0 (String.data "v=DKIM1; p=; k=dsa; h=sha1:sha256; n=note")
    [(String.data "v", String.data "DKIM1"), (String.data "p", []),
     (String.data "k", String.data "dsa"),
     (String.data "h", String.data "sha1:sha256"), (String.data "n", String.data "note")]
    (by rfl) (Or.inr (by rfl)) (by rfl)

theorem c4_counterexample :
    ParseDKIM env0 (String.data "v=DKIM2; p=") = .error .unsupportedVersion ∧
    parseDKIMParams (String.data "v=DKIM2; p=") =
      .ok [(String.data "v", String.data "DKIM2"), (String.data "p", [])] ∧
    mapFind? [(String.data "v", String.data "DKIM2"), (String.data "p", [])]
      (String.data "p") = some [] :=
  ⟨by rfl, by rfl, by rfl⟩

/-- Claim C5 (amended): on the non-revoked key-validation path (lexing, the
version check and the base64 decode all passed, `p` non-empty), `ParseDKIM`
determines the key type from the `k` tag, defaulting to `rsa` when the tag is
absent — the `switch` also treats an empty `k` value as `rsa` — and fails with
`UnsupportedKeyType` when `k` holds any other value than `rsa`, the empty
string or `ed25519`.  A revoked record (`p` present but empty) skips the `k`
tag entirely, so no `UnsupportedKeyType` error can arise there, and records
rejected by an earlier step fail with that earlier error instead. -/
theorem c5_key_type (env : CryptoEnv) (s : List Char) (params : Params)
    (p : List Char) (b : List Nat)
    (hparams : parseDKIMParams s = .ok params) (hv : versionOK params)
    (hp : mapFind? params (String.data "p") = some p) (hne : p ≠ [])
    (hb : b64Decode (stripSpaces p) = some b) :
    (∀ kv, mapFind? params (String.data "k") = some kv →
      ¬(kv = String.data "rsa" ∨ kv = [] ∨ kv = String.data "ed25519") →
      ParseDKIM env s = .error (.unsupportedKeyType kv)) ∧
    ((mapFind? params (String.data "k") = none ∨
      mapFind? params (String.data "k") = some (String.data "rsa") ∨
      mapFind? params (String.data "k") = some []) →
      ∀ rec, ParseDKIM env s = .ok rec → rec.keyType = String.data "rsa") ∧
    (mapFind? params (String.data "k") = some (String.data "ed25519") →
      ∀ rec, ParseDKIM env s = .ok rec → rec.keyType = String.data "ed25519") := by
  rw [parseDKIM_params env s params hparams, withParams_keyStage env params p hv hp hne]
  simp only [keyStage]
  rw [hb]
  refine ⟨?_, ?_, ?_⟩
  · intro kv hk hkv
    push_neg at hkv
    obtain ⟨h1, h2, h3⟩ := hkv
    simp [hk, h1, h2, h3]
  · intro hk rec
    rcases hk with hk | hk | hk
    all_goals
      simp only [hk]
      split
      · split
        · intro h
          simp at h
        · split
          · intro h
            simp at h
          · intro h
            simp only [Except.ok.injEq] at h
            subst h
            rfl
      · rename_i hC
        simp at hC
  · intro hk rec
    simp only [hk]
    split
    · rename_i hC
      exact absurd hC (by decide)
    · split
      · split
        · intro h
          simp at h
        · intro h
          simp only [Except.ok.injEq] at h
          subst h
          rfl
      · rename_i hC
        simp at hC

theorem c5_key_type_witness :
    ParseDKIM env0 (String.data "v=DKIM1; k=dsa; p=AA==") =
      .error (.unsupportedKeyType (String.data "dsa")) :=
  (c5_key_type env0 (String.data "v=DKIM1; k=dsa; p=AA==")
    [(String.data "v", String.data "DKIM1"), (String.data "k", String.data "dsa"),
     (String.data "p", String.data "AA==")]
    (String.data "AA==") [0]
    (by rfl) (Or.inr (by rfl)) (by rfl) (by decide) (by rfl)).1
    (String.data "dsa") (by rfl) (by decide)

theorem c5_counterexample :
    parseDKIMParams (String.data "v=DKIM1; p=; k=dsa") =
      .ok [(String.data "v", String.data "DKIM1"), (String.data "p", []),
           (String.data "k", String.data "dsa")] ∧
    ParseDKIM env0 (String.data "v=DKIM1; p=; k=dsa") = .ok revokedRec ∧
    revokedRec.keyType = String.data "rsa" :=
  ⟨by rfl, by rfl, by rfl⟩

theorem parseRSA_not_invalidBase64 (env : CryptoEnv) (b : List Nat) :
    parseRSA env b ≠ .error .invalidBase64 := by
  unfold parseRSA
  split <;> simp
  split <;> simp

theorem keyStage_rsa (env : CryptoEnv) (params : Params) (p : List Char)
    (b : List Nat) (hb : b64Decode (stripSpaces p) = some b)
    (hk : mapFind? params (String.data "k") = none ∨
      mapFind? params (String.data "k") = some (String.data "rsa") ∨
      mapFind? params (String.data "k") = some []) :
    keyStage env params p =
      match parseRSA env b with
      | .error e => .error e
      | .ok k =>
        if rsaKeyBits k < 1024 then .error (.keyTooShort (rsaKeyBits k))
        else .ok (buildRecord params (String.data "rsa") (stripSpaces p) false) := by
  simp only [keyStage]
  rw [hb]
  rcases hk with hk | hk | hk <;> simp [hk]

theorem keyStage_ed25519 (env : CryptoEnv) (params : Params) (p : List Char)
    (b : List Nat) (hb : b64Decode (stripSpaces p) = some b)
    (hk : mapFind? params (String.data "k") = some (String.data "ed25519")) :
    keyStage env params p =
      if b.length ≠ 32 then .error (.invalidKeySize b.length)
      else .ok (buildRecord params (String.data "ed25519") (stripSpaces p) false) := by
  simp only [keyStage]
  rw [hb]
  simp [hk]

theorem keyStage_ok (env : CryptoEnv) (params : Params) (p : List Char)
    (rec : DKIMRecord) (h : keyStage env params p = .ok rec) :
    ∃ b, b64Decode (stripSpaces p) = some b ∧
      ((∃ k, parseRSA env b = .ok k ∧
          rec = buildRecord params (String.data "rsa") (stripSpaces p) false) ∨
       (b.length = 32 ∧
          rec = buildRecord params (String.data "ed25519") (stripSpaces p) false)) := by
  simp only [keyStage] at h
  split at h
  · simp at h
  · rename_i b hb
    refine ⟨b, hb, ?_⟩
    split at h
    · split at h
      · simp at h
      · rename_i k hk
        split at h
        · simp at h
        · simp only [Except.ok.injEq] at h
          exact Or.inl ⟨k, hk, h.symm⟩
    · split at h
      · split at h
        · simp at h
        · rename_i hlen
          simp only [Except.ok.injEq] at h
          exact Or.inr ⟨by omega, h.symm⟩
      · simp at h

theorem parseDKIMWithParams_ok (env : CryptoEnv) (params : Params)
    (rec : DKIMRecord) (h : parseDKIMWithParams env params = .ok rec) :
    ∃ p, mapFind? params (String.data "p") = some p ∧
      ((p = [] ∧ rec = buildRecord params (String.data "rsa") [] true) ∨
       (p ≠ [] ∧ keyStage env params p = .ok rec)) := by
  simp only [parseDKIMWithParams] at h
  split at h
  · split at h
    · split at h
      · simp at h
      · rename_i p hp
        split at h
        · rename_i hpe
          simp only [Except.ok.injEq] at h
          exact ⟨p, hp, Or.inl ⟨hpe, h.symm⟩⟩
        · rename_i hpe
          exact ⟨p, hp, Or.inr ⟨hpe, h⟩⟩
    · simp at h
  · split at h
    · simp at h
    · rename_i p hp
      split at h
      · rename_i hpe
        simp only [Except.ok.injEq] at h
        exact ⟨p, hp, Or.inl ⟨hpe, h.symm⟩⟩
      · rename_i hpe
        exact ⟨p, hp, Or.inr ⟨hpe, h⟩⟩

/-- Claim C2: every record `ParseDKIM` returns satisfies the invariant — a
revoked record's `publicKey` is empty, and a non-revoked record's `publicKey`
is valid standard base64 whose decoded bytes parse as a structurally valid key
of the record's key type: an RSA key (public-key-info or raw form) for `rsa`,
a 32-byte key for `ed25519`. -/
theorem c2_invariant (env : CryptoEnv) (s : List Char) (rec : DKIMRecord)
    (h : ParseDKIM env s = .ok rec) :
    (rec.isRevoked = true → rec.publicKey = []) ∧
    (rec.isRevoked = false →
      ∃ b, b64Decode rec.publicKey = some b ∧
        ((rec.keyType = String.data "rsa" ∧ ∃ k, parseRSA env b = .ok k) ∨
         (rec.keyType = String.data "ed25519" ∧ b.length = 32))) := by
  unfold ParseDKIM at h
  split at h
  · simp at h
  · rename_i params hparams
    obtain ⟨p, hp, hcase⟩ := parseDKIMWithParams_ok env params rec h
    rcases hcase with ⟨hpe, hrec⟩ | ⟨hpe, hks⟩
    · subst hrec
      constructor
      · intro _
        rfl
      · intro hfalse
        simp [buildRecord] at hfalse
    · obtain ⟨b, hb, hkey⟩ := keyStage_ok env params p rec hks
      rcases hkey with ⟨k, hk, hrec⟩ | ⟨hlen, hrec⟩
      · subst hrec
        constructor
        · intro htrue
          simp [buildRecord] at htrue
        · intro _
          exact ⟨b, hb, Or.inl ⟨rfl, k, hk⟩⟩
      · subst hrec
        constructor
        · intro htrue
          simp [buildRecord] at htrue
        · intro _
          exact ⟨b, hb, Or.inr ⟨rfl, hlen⟩⟩

theorem c2_invariant_witness : revokedRec.publicKey = [] :=
  (c2_invariant env0 (String.data "v=DKIM1; p=") revokedRec (by rfl)).1 (by rfl)

/-- Claim C7: on the RSA validation path, the decoded bytes are interpreted
first as a public-key-info (PKIX) structure and, on failure, as a raw
(PKCS1) RSA key; if both interpretations fail the parser fails with
`InvalidKeyEncoding`, and if the PKIX interpretation succeeds with a key of
another algorithm it fails with `KeyAlgorithmMismatch`; a key obtained either
way proceeds to the size check. -/
theorem c7_rsa_fallback (env : CryptoEnv) (s : List Char) (params : Params)
    (p : List Char) (b : List Nat)
    (hparams : parseDKIMParams s = .ok params) (hv : versionOK params)
    (hp : mapFind? params (String.data "p") = some p) (hne : p ≠ [])
    (hb : b64Decode (stripSpaces p) = some b)
    (hk : mapFind? params (String.data "k") = none ∨
      mapFind? params (String.data "k") = some (String.data "rsa") ∨
      mapFind? params (String.data "k") = some []) :
    (env.parsePKIX b = none → env.parsePKCS1 b = none →
      ParseDKIM env s = .error .invalidKeyEncoding) ∧
    (env.parsePKIX b = some .nonRSA →
      ParseDKIM env s = .error .keyAlgorithmMismatch) ∧
    (∀ k, env.parsePKIX b = some (.rsa k) →
      ParseDKIM env s =
        if rsaKeyBits k < 1024 then .error (.keyTooShort (rsaKeyBits k))
        else .ok (buildRecord params (String.data "rsa") (stripSpaces p) false)) ∧
    (∀ k, env.parsePKIX b = none → env.parsePKCS1 b = some k →
      ParseDKIM env s =
        if rsaKeyBits k < 1024 then .error (.keyTooShort (rsaKeyBits k))
        else .ok (buildRecord params (String.data "rsa") (stripSpaces p) false)) := by
  rw [parseDKIM_params env s params hparams, withParams_keyStage env params p hv hp hne,
    keyStage_rsa env params p b hb hk]
  refine ⟨?_, ?_, ?_, ?_⟩
  · intro h1 h2
    unfold parseRSA
    rw [h1, h2]
  · intro h1
    unfold parseRSA
    rw [h1]
  · intro k h1
    unfold parseRSA
    rw [h1]
  · intro k h1 h2
    unfold parseRSA
    rw [h1, h2]

theorem c7_rsa_fallback_witness :
    ParseDKIM env0 (String.data "v=DKIM1; p=AA==") = .error .invalidKeyEncoding :=
  (c7_rsa_fallback env0 (String.data "v=DKIM1; p=AA==")
    [(String.data "v", String.data "DKIM1"), (String.data "p", String.data "AA==")]
    (String.data "AA==") [0]
    (by rfl) (Or.inr (by rfl)) (by rfl) (by decide) (by rfl)
    (Or.inl (by rfl))).1 (by rfl) (by rfl)

/-- Claim C8: on the `ed25519` validation path, key validation succeeds exactly
when the decoded key is 32 bytes long, and fails with `InvalidKeySize`
otherwise. -/
theorem c8_ed25519_size (env : CryptoEnv) (s : List Char) (params : Params)
    (p : List Char) (b : List Nat)
    (hparams : parseDKIMParams s = .ok params) (hv : versionOK params)
    (hp : mapFind? params (String.data "p") = some p) (hne : p ≠ [])
    (hb : b64Decode (stripSpaces p) = some b)
    (hk : mapFind? params (String.data "k") = some (String.data "ed25519")) :
    (b.length = 32 →
      ParseDKIM env s =
        .ok (buildRecord params (String.data "ed25519") (stripSpaces p) false)) ∧
    (b.length ≠ 32 → ParseDKIM env s = .error (.invalidKeySize b.length)) := by
  rw [parseDKIM_params env s params hparams, withParams_keyStage env params p hv hp hne,
    keyStage_ed25519 env params p b hb hk]
  constructor
  · intro hlen
    rw [if_neg (by omega)]
  · intro hlen
    rw [if_pos hlen]

theorem c8_ed25519_size_witness :
    ParseDKIM env0 edRecText =
      .ok (buildRecord
        [(String.data "v", String.data "DKIM1"),
         (String.data "k", String.data "ed25519"), (String.data "p", pEd)]
        (String.data "ed25519") (stripSpaces pEd) false) :=
  (c8_ed25519_size env0 edRecText
    [(String.data "v", String.data "DKIM1"),
     (String.data "k", String.data "ed25519"), (String.data "p", pEd)]
    pEd (List.replicate 32 0)
    (by rfl) (Or.inr (by rfl)) (by rfl) (by decide) (by rfl) (by rfl)).1 (by rfl)

theorem rsaBranch_not_invalidBase64 (env : CryptoEnv) (b : List Nat)
    (params : Params) (p : List Char) :
    (match parseRSA env b with
     | .error e => Except.error e
     | .ok k =>
       if rsaKeyBits k < 1024 then Except.error (DKIMError.keyTooShort (rsaKeyBits k))
       else Except.ok (buildRecord params (String.data "rsa") (stripSpaces p) false)) ≠
      Except.error DKIMError.invalidBase64 := by
  split
  · rename_i e heq
    intro hcontra
    rw [show e = DKIMError.invalidBase64 from by simpa using hcontra] at heq
    exact parseRSA_not_invalidBase64 env b heq
  · split <;> simp

theorem keyStage_not_invalidBase64 (env : CryptoEnv) (params : Params)
    (p : List Char) (b : List Nat) (hb : b64Decode (stripSpaces p) = some b) :
    keyStage env params p ≠ .error .invalidBase64 := by
  intro h
  rcases hk : mapFind? params (String.data "k") with _ | kv
  · rw [keyStage_rsa env params p b hb (Or.inl hk)] at h
    exact rsaBranch_not_invalidBase64 env b params p h
  · by_cases h1 : kv = String.data "rsa"
    · subst h1
      rw [keyStage_rsa env params p b hb (Or.inr (Or.inl hk))] at h
      exact rsaBranch_not_invalidBase64 env b params p h
    · by_cases h2 : kv = []
      · subst h2
        rw [keyStage_rsa env params p b hb (Or.inr (Or.inr hk))] at h
        exact rsaBranch_not_invalidBase64 env b params p h
      · by_cases h3 : kv = String.data "ed25519"
        · subst h3
          rw [keyStage_ed25519 env params p b hb hk] at h
          split at h <;> simp at h
        · simp only [keyStage, hb, hk] at h
          rw [if_neg (by simp [h1, h2]), if_neg h3] at h
          simp at h

/-- Claim C10 (amended): for a non-empty `p` value, `ParseDKIM` removes the
space characters (and only those - other white space is left in place, though
the base64 decoder itself ignores CR and LF) and decodes the result as
standard base64; it fails with `InvalidBase64` exactly when that decoding
fails, and on success the record's `publicKey` holds the space-stripped
text. -/
theorem c10_base64 (env : CryptoEnv) (s : List Char) (params : Params)
    (p : List Char)
    (hparams : parseDKIMParams s = .ok params) (hv : versionOK params)
    (hp : mapFind? params (String.data "p") = some p) (hne : p ≠ []) :
    (ParseDKIM env s = .error .invalidBase64 ↔ b64Decode (stripSpaces p) = none) ∧
    (∀ rec, ParseDKIM env s = .ok rec → rec.publicKey = stripSpaces p) := by
  rw [parseDKIM_params env s params hparams, withParams_keyStage env params p hv hp hne]
  constructor
  · cases hdec : b64Decode (stripSpaces p) with
    | none =>
      simp only [keyStage, hdec]
    | some b =>
      constructor
      · intro hEq
        exact absurd hEq (keyStage_not_invalidBase64 env params p b hdec)
      · intro hfalse
        simp at hfalse
  · intro rec hrec
    obtain ⟨b, hb, hkey⟩ := keyStage_ok env params p rec hrec
    rcases hkey with ⟨k, _, hrec'⟩ | ⟨_, hrec'⟩ <;>
      · subst hrec'
        rfl

theorem c10_base64_witness :
    ParseDKIM env0 (String.data "v=DKIM1; p=not-valid-base64!!!") =
      .error .invalidBase64 :=
  (c10_base64 env0 (String.data "v=DKIM1; p=not-valid-base64!!!")
    [(String.data "v", String.data "DKIM1"),
     (String.data "p", String.data "not-valid-base64!!!")]
    (String.data "not-valid-base64!!!")
    (by rfl) (Or.inr (by rfl)) (by rfl) (by decide)).1.mpr (by rfl)

set_option maxRecDepth 100000 in
/-- Claim C3, the code evaluated at the failing input: in a decoder
environment that yields an RSA modulus of `2 ^ 1016` — bit length 1017,
strictly below the 1024-bit RFC 8301 floor the claim and the code's own
comment state — `ParseDKIM` accepts the record instead of failing with
`KeyTooShort`, because the code computes `keyBits` as `Size() * 8`, the bit
length rounded up to whole bytes, which is 1024 here. -/
theorem c3_code_eval :
    ParseDKIM envC3 (String.data "v=DKIM1; p=AA==") =
      .ok ⟨String.data "rsa", String.data "AA==", [], [], [], [], false⟩ ∧
    envC3.parsePKIX [0] = some (.rsa ⟨2 ^ 1016, 65537⟩) ∧
    b64Decode (stripSpaces (String.data "AA==")) = some [0] ∧
    natBitLen (2 ^ 1016) = 1017 ∧
    rsaKeyBits ⟨2 ^ 1016, 65537⟩ = 1024 ∧
    natBitLen (2 ^ 1016) < 1024 :=
  ⟨by rfl, by rfl, by rfl, by rfl, by rfl, by decide⟩

theorem c10_counterexample :
    parseDKIMParams (String.data "v=DKIM1; p=Q\tQ==") =
      .ok [(String.data "v", String.data "DKIM1"), (String.data "p", String.data "Q\tQ==")] ∧
    ParseDKIM env0 (String.data "v=DKIM1; p=Q\tQ==") = .error .invalidBase64 ∧
    b64Decode ((String.data "Q\tQ==").filter (fun c => !(isGoSpace c))) = some [65] ∧
    isGoSpace '\t' = true :=
  ⟨by rfl, by rfl, by rfl, by rfl⟩
